import Mathlib

/-!
Shallow embedding of the tinygo-buffers conversion library.

Byte buffers are modelled as `List Nat` (each entry a byte value), machine
integers as `Nat`/`Int` with explicit wraparound where Go overflow matters,
and Go float64 values as exact rationals (`Rat`); every input used in a
concrete evaluation below is a dyadic rational on which the corresponding
float64 arithmetic is exact.  Functions that can hit a Go runtime panic
(out-of-range index or slice bound) return `Option`, with `none` marking the
panic.  The shared scratch buffers are passed in and returned explicitly.
-/

namespace TinygoBuffers

/-- Byte values of the hex digit table `ASCIIHexDigits = "0123456789ABCDEF"`
(src/unnamed/part_001). -/
def ASCIIHexDigits : List Nat :=
  [48, 49, 50, 51, 52, 53, 54, 55, 56, 57, 65, 66, 67, 68, 69, 70]

/-- Byte values of the decimal digit table `ASCIIDecimalDigits = "0123456789"`
(src/unnamed/part_001). -/
def ASCIIDecimalDigits : List Nat :=
  [48, 49, 50, 51, 52, 53, 54, 55, 56, 57]

/-- `ErrorCodeBuffersStartNumber` (src/errors.go). -/
def ErrorCodeBuffersStartNumber : Nat := 4000

/-- `ErrorCodeBuffersInvalidBufferSize` (src/errors.go, first iota value). -/
def ErrorCodeBuffersInvalidBufferSize : Nat := ErrorCodeBuffersStartNumber

/-- `ErrorCodeBuffersTooMuchPrecisionDigitsForFloat64` (src/errors.go, second
iota value). -/
def ErrorCodeBuffersTooMuchPrecisionDigitsForFloat64 : Nat :=
  ErrorCodeBuffersStartNumber + 1

/-- Modelled from the spec: `tinygoerrors.ErrorCodeNil`, the no-error sentinel
of the external tinygo-errors package (spec section 3: "zero/sentinel value
means no error"). -/
def ErrorCodeNil : Nat := 0

/-- `UintToHexIndex` (src/unnamed/part_002 lines 21-27): index into
`ASCIIHexDigits` of the hex digit of `value` at position `pos`, or -1 when
`pos` is out of range for the given bit `size`. -/
def UintToHexIndex (value : Nat) (size : Int) (pos : Int) : Int :=
  if pos < 0 ∨ pos > size / 4 - 1 then -1
  else ((value >>> ((size / 4 - 1 - pos) * 4).toNat) &&& 0x0F : Nat)

/-- One iteration of the write loop that the four `UintNToHex` functions repeat
verbatim (src/unnamed/part_002): at position `c`, write the glyph for the hex
digit selected by `UintToHexIndex` when its result is nonnegative, else leave
the buffer byte unchanged. -/
def hexWriteStep (value : Nat) (size : Int) (b : List Nat) (c : Nat) : List Nat :=
  let index := UintToHexIndex value size (c : Int)
  if 0 ≤ index then b.set c (ASCIIHexDigits.getD index.toNat 0) else b

/-- `Uint8ToHex` (src/unnamed/part_002): loops over the whole 16-byte hex
buffer, returns the view of its first 2 bytes. -/
def Uint8ToHex (value : Nat) (buf : List Nat) : List Nat × List Nat :=
  let buf1 := (List.range buf.length).foldl (hexWriteStep value 8) buf
  (buf1.take 2, buf1)

/-- `Uint16ToHex` (src/unnamed/part_002). -/
def Uint16ToHex (value : Nat) (buf : List Nat) : List Nat × List Nat :=
  let buf1 := (List.range buf.length).foldl (hexWriteStep value 16) buf
  (buf1.take 4, buf1)

/-- `Uint32ToHex` (src/unnamed/part_002). -/
def Uint32ToHex (value : Nat) (buf : List Nat) : List Nat × List Nat :=
  let buf1 := (List.range buf.length).foldl (hexWriteStep value 32) buf
  (buf1.take 8, buf1)

/-- `Uint64ToHex` (src/unnamed/part_002). -/
def Uint64ToHex (value : Nat) (buf : List Nat) : List Nat × List Nat :=
  let buf1 := (List.range buf.length).foldl (hexWriteStep value 64) buf
  (buf1.take 16, buf1)

/-- The digit loop shared by `UintToDecimal` and `IntToDecimal`
(src/unnamed/part_002): while `v > 0 && i > 0`, decrement the cursor, write
the glyph of `v % 10` there, and divide `v` by 10.  Returns the final cursor
and buffer. -/
def uintToDecimalLoop : Nat → Nat → List Nat → Nat × List Nat
  | _, 0, buf => (0, buf)
  | v, i + 1, buf =>
    if 0 < v then
      uintToDecimalLoop (v / 10) i (buf.set i (ASCIIDecimalDigits.getD (v % 10) 0))
    else (i + 1, buf)

/-- `UintToDecimal` (src/unnamed/part_002 lines 114-128): fill the 20-byte
decimal buffer from its end backward; special-case zero; return the view from
the final cursor to the end, together with the new buffer state. -/
def UintToDecimal (value : Nat) (buf : List Nat) : List Nat × List Nat :=
  let i := buf.length
  let p := if value = 0 then (i - 1, buf.set (i - 1) (ASCIIDecimalDigits.getD 0 0))
           else (i, buf)
  let q := uintToDecimalLoop value p.1 p.2
  (q.2.drop q.1, q.2)

/-- Two's-complement wraparound of Go `int64` arithmetic: reduce an
unbounded integer into `[-2^63, 2^63)`. -/
def int64wrap (x : Int) : Int := (x + 2 ^ 63) % 2 ^ 64 - 2 ^ 63

/-- `IntToDecimal` (src/unnamed/part_002 lines 139-160): Go negation `v = -v`
on int64 wraps around, which is reproduced by `int64wrap`; the digit loop runs
only while `v > 0`; a minus sign (byte 45) is written when the input was
negative and the cursor has room.  The buffer is `IntToDecimalBuffer`, whose
declaration is not under src/; the spec (section 2) sizes the decimal scratch
buffers at 20 bytes, which is the length hypothesised in the theorems below. -/
def IntToDecimal (value : Int) (buf : List Nat) : List Nat × List Nat :=
  let i0 := buf.length
  let v : Int := if value < 0 then int64wrap (-value) else value
  let p := if v = 0 then (i0 - 1, buf.set (i0 - 1) (ASCIIDecimalDigits.getD 0 0))
           else (i0, buf)
  let q := if 0 < v then uintToDecimalLoop v.toNat p.1 p.2 else p
  let r := if value < 0 ∧ 0 < q.1 then (q.1 - 1, q.2.set (q.1 - 1) 45) else q
  (r.2.drop r.1, r.2)

/-- Go built-in `copy` into the suffix of `dst` that starts at offset `s`:
copies `min (dst.length - s) src.length` bytes.  Go's copy has memmove
semantics, and `src` here is a pure snapshot, so overlapping source and
destination behave as in Go. -/
def listCopy : List Nat → Nat → List Nat → List Nat
  | dst, _, [] => dst
  | dst, s, a :: rest => if s < dst.length then listCopy (dst.set s a) (s + 1) rest else dst

/-- `UintToDecimalFixed` (src/unnamed/part_002 lines 172-188).  `width` is a Go
`int`.  The Go slice expressions `UintToDecimalBuffer[pad:]` and
`UintToDecimalBuffer[:width]` panic when `pad` resp. `width` exceeds the
20-byte buffer length; `none` models those panics. -/
def UintToDecimalFixed (value : Nat) (width : Int) (buf : List Nat) :
    Option (List Nat × List Nat) :=
  let p := UintToDecimal value buf
  let pad : Int := width - p.1.length
  if pad ≤ 0 then some (p.1, p.2)
  else if (p.2.length : Int) < pad then none
  else
    let buf2 := listCopy p.2 pad.toNat p.1
    let buf3 := (List.range pad.toNat).foldl
      (fun b j => b.set j (ASCIIDecimalDigits.getD 0 0)) buf2
    if (buf3.length : Int) < width then none
    else some (buf3.take width.toNat, buf3)

/-- Truncation toward zero: the Go conversions `int64(value)` and
`int(fracPart)` from float64, on the rational model. -/
def ratTrunc (q : Rat) : Int := Int.tdiv q.num (q.den : Int)

/-- The fractional-digit loop of `Float64ToDecimal` (src/unnamed/part_002):
multiply the remaining fraction by 10, truncate to get the digit, write
`byte('0' + digit)` (Go byte conversion wraps modulo 256, which matters when
the fraction is negative), advance the index, subtract the digit back out. -/
def float64FracLoop : Rat → Nat → Nat → List Nat → List Nat × Rat
  | fracPart, 0, _, buf => (buf, fracPart)
  | fracPart, n + 1, idx, buf =>
    let f := fracPart * 10
    let digit := ratTrunc f
    float64FracLoop (f - (digit : Rat)) n (idx + 1)
      (buf.set idx (((48 + digit) % 256).toNat))

/-- `Float64ToDecimal` (src/unnamed/part_002 lines 200-230).  `fbuf` is
`Float64ToDecimalBuffer`, whose declaration is not under src/; the spec
(section 2) sizes the float composition buffer at 8 bytes, which is the length
hypothesised in the theorems below.  `ibuf` is the `IntToDecimal` scratch
buffer.  The integer part and the separator byte 46 are written before the
precision check; the write of the separator at index `len(intBuf)` panics in
Go when that index reaches the buffer length, which `none` models.  On the
precision error Go returns `nil` for the view.  The result carries the view,
the error code, and the two buffer states. -/
def Float64ToDecimal (value : Rat) (precision : Int) (fbuf ibuf : List Nat) :
    Option (List Nat × Nat × List Nat × List Nat) :=
  let intPart : Int := ratTrunc value
  let fracPart : Rat := value - (intPart : Rat)
  let p := IntToDecimal intPart ibuf
  let fbuf1 := listCopy fbuf 0 p.1
  let idx := p.1.length
  if fbuf1.length ≤ idx then none
  else
    let fbuf2 := fbuf1.set idx 46
    let idx2 := idx + 1
    if (fbuf2.length : Int) - idx2 < precision then
      some ([], ErrorCodeBuffersTooMuchPrecisionDigitsForFloat64, fbuf2, p.2)
    else
      let q := float64FracLoop fracPart precision.toNat idx2 fbuf2
      some (q.1.take (idx2 + precision.toNat), ErrorCodeNil, q.1, p.2)

/-- `binary.BigEndian.PutUint16` as used by `Uint16ToBytes`: byte 0 gets
`byte(v >> 8)`, byte 1 gets `byte(v)`. -/
def putUint16BE (buf : List Nat) (v : Nat) : List Nat :=
  (buf.set 0 (v >>> 8 % 256)).set 1 (v % 256)

/-- `binary.LittleEndian.PutUint16` as used by `Uint16ToBytesLE`. -/
def putUint16LE (buf : List Nat) (v : Nat) : List Nat :=
  (buf.set 0 (v % 256)).set 1 (v >>> 8 % 256)

/-- `binary.BigEndian.PutUint32` as used by `Uint32ToBytes`. -/
def putUint32BE (buf : List Nat) (v : Nat) : List Nat :=
  ((((buf.set 0 (v >>> 24 % 256)).set 1 (v >>> 16 % 256)).set 2
    (v >>> 8 % 256)).set 3 (v % 256))

/-- `binary.LittleEndian.PutUint32` as used by `Uint32ToBytesLE`. -/
def putUint32LE (buf : List Nat) (v : Nat) : List Nat :=
  ((((buf.set 0 (v % 256)).set 1 (v >>> 8 % 256)).set 2
    (v >>> 16 % 256)).set 3 (v >>> 24 % 256))

/-- `binary.BigEndian.PutUint64` as used by `Uint64ToBytes`. -/
def putUint64BE (buf : List Nat) (v : Nat) : List Nat :=
  ((((((((buf.set 0 (v >>> 56 % 256)).set 1 (v >>> 48 % 256)).set 2
    (v >>> 40 % 256)).set 3 (v >>> 32 % 256)).set 4 (v >>> 24 % 256)).set 5
    (v >>> 16 % 256)).set 6 (v >>> 8 % 256)).set 7 (v % 256))

/-- `binary.LittleEndian.PutUint64` as used by `Uint64ToBytesLE`. -/
def putUint64LE (buf : List Nat) (v : Nat) : List Nat :=
  ((((((((buf.set 0 (v % 256)).set 1 (v >>> 8 % 256)).set 2
    (v >>> 16 % 256)).set 3 (v >>> 24 % 256)).set 4 (v >>> 32 % 256)).set 5
    (v >>> 40 % 256)).set 6 (v >>> 48 % 256)).set 7 (v >>> 56 % 256))

/-- `Uint16ToBytes` (src/unnamed/part_002 lines 242-249): validate the buffer
length, then write big-endian.  Returns the error code and the new buffer. -/
def Uint16ToBytes (value : Nat) (buffer : List Nat) : Nat × List Nat :=
  if buffer.length < 2 then (ErrorCodeBuffersInvalidBufferSize, buffer)
  else (ErrorCodeNil, putUint16BE buffer value)

/-- `Uint32ToBytes` (src/unnamed/part_002 lines 274-281). -/
def Uint32ToBytes (value : Nat) (buffer : List Nat) : Nat × List Nat :=
  if buffer.length < 4 then (ErrorCodeBuffersInvalidBufferSize, buffer)
  else (ErrorCodeNil, putUint32BE buffer value)

/-- `Uint64ToBytes` (src/unnamed/part_002). -/
def Uint64ToBytes (value : Nat) (buffer : List Nat) : Nat × List Nat :=
  if buffer.length < 8 then (ErrorCodeBuffersInvalidBufferSize, buffer)
  else (ErrorCodeNil, putUint64BE buffer value)

/-- `Uint16ToBytesLE` (src/unnamed/part_002). -/
def Uint16ToBytesLE (value : Nat) (buffer : List Nat) : Nat × List Nat :=
  if buffer.length < 2 then (ErrorCodeBuffersInvalidBufferSize, buffer)
  else (ErrorCodeNil, putUint16LE buffer value)

/-- `Uint32ToBytesLE` (src/unnamed/part_002). -/
def Uint32ToBytesLE (value : Nat) (buffer : List Nat) : Nat × List Nat :=
  if buffer.length < 4 then (ErrorCodeBuffersInvalidBufferSize, buffer)
  else (ErrorCodeNil, putUint32LE buffer value)

/-- `Uint64ToBytesLE` (src/unnamed/part_002). -/
def Uint64ToBytesLE (value : Nat) (buffer : List Nat) : Nat × List Nat :=
  if buffer.length < 8 then (ErrorCodeBuffersInvalidBufferSize, buffer)
  else (ErrorCodeNil, putUint64LE buffer value)

/-- `BytesToUint16` (src/unnamed/part_002 lines 494-499): returns the decoded
value and the error code. -/
def BytesToUint16 (data : List Nat) : Nat × Nat :=
  if data.length < 2 then (0, ErrorCodeBuffersInvalidBufferSize)
  else ((data.getD 0 0 <<< 8) ||| data.getD 1 0, ErrorCodeNil)

/-- `BytesToUint32` (src/unnamed/part_002). -/
def BytesToUint32 (data : List Nat) : Nat × Nat :=
  if data.length < 4 then (0, ErrorCodeBuffersInvalidBufferSize)
  else ((data.getD 0 0 <<< 24) ||| (data.getD 1 0 <<< 16) |||
    (data.getD 2 0 <<< 8) ||| data.getD 3 0, ErrorCodeNil)

/-- `BytesToUint64` (src/unnamed/part_002 lines 560-566). -/
def BytesToUint64 (data : List Nat) : Nat × Nat :=
  if data.length < 8 then (0, ErrorCodeBuffersInvalidBufferSize)
  else ((data.getD 0 0 <<< 56) ||| (data.getD 1 0 <<< 48) |||
    (data.getD 2 0 <<< 40) ||| (data.getD 3 0 <<< 32) |||
    (data.getD 4 0 <<< 24) ||| (data.getD 5 0 <<< 16) |||
    (data.getD 6 0 <<< 8) ||| data.getD 7 0, ErrorCodeNil)

/-- `BytesToUint16LE` (src/unnamed/part_002). -/
def BytesToUint16LE (data : List Nat) : Nat × Nat :=
  if data.length < 2 then (0, ErrorCodeBuffersInvalidBufferSize)
  else ((data.getD 1 0 <<< 8) ||| data.getD 0 0, ErrorCodeNil)

/-- `BytesToUint32LE` (src/unnamed/part_002). -/
def BytesToUint32LE (data : List Nat) : Nat × Nat :=
  if data.length < 4 then (0, ErrorCodeBuffersInvalidBufferSize)
  else ((data.getD 3 0 <<< 24) ||| (data.getD 2 0 <<< 16) |||
    (data.getD 1 0 <<< 8) ||| data.getD 0 0, ErrorCodeNil)

/-- `BytesToUint64LE` (src/unnamed/part_002). -/
def BytesToUint64LE (data : List Nat) : Nat × Nat :=
  if data.length < 8 then (0, ErrorCodeBuffersInvalidBufferSize)
  else ((data.getD 7 0 <<< 56) ||| (data.getD 6 0 <<< 48) |||
    (data.getD 5 0 <<< 40) ||| (data.getD 4 0 <<< 32) |||
    (data.getD 3 0 <<< 24) ||| (data.getD 2 0 <<< 16) |||
    (data.getD 1 0 <<< 8) ||| data.getD 0 0, ErrorCodeNil)

/-- Spec-level description of the hex encoding (spec section 4.1): `n` hex
digits, most-significant first, digit `p` being `value / 16 ^ (n - 1 - p)`
modulo 16, rendered through the uppercase digit table. -/
def hexRep (n : Nat) (value : Nat) : List Nat :=
  (List.range n).map (fun p => ASCIIHexDigits.getD (value / 16 ^ (n - 1 - p) % 16) 0)

/-- Little-endian list of the decimal digit values of `v` (empty for zero). -/
def natDigitsLE (v : Nat) : List Nat :=
  if h : v = 0 then [] else v % 10 :: natDigitsLE (v / 10)
termination_by v
decreasing_by exact Nat.div_lt_self (Nat.pos_of_ne_zero h) (by omega)

/-- Spec-level minimal decimal ASCII representation of `v` (spec section 4.2):
`"0"` for zero, otherwise the digits most-significant first with no leading
zero. -/
def decRep (v : Nat) : List Nat :=
  if v = 0 then [48] else (natDigitsLE v).reverse.map (fun d => 48 + d)

/-! ## Helper lemmas about the list model -/

theorem length_ge_two_decomp (l : List Nat) (h : 2 ≤ l.length) :
    ∃ a b t, l = a :: b :: t := by
  match l with
  | [] => simp at h
  | [a] => simp at h
  | a :: b :: t => exact ⟨a, b, t, rfl⟩

theorem length_ge_four_decomp (l : List Nat) (h : 4 ≤ l.length) :
    ∃ a b c d t, l = a :: b :: c :: d :: t := by
  match l with
  | [] => simp at h
  | [a] => simp at h
  | [a, b] => simp at h
  | [a, b, c] => simp at h
  | a :: b :: c :: d :: t => exact ⟨a, b, c, d, t, rfl⟩

theorem length_ge_eight_decomp (l : List Nat) (h : 8 ≤ l.length) :
    ∃ a b c d e f g k t, l = a :: b :: c :: d :: e :: f :: g :: k :: t := by
  match l with
  | a :: b :: c :: d :: e :: f :: g :: k :: t => exact ⟨a, b, c, d, e, f, g, k, t, rfl⟩
  | [] => simp at h
  | [_] => simp at h
  | [_, _] => simp at h
  | [_, _, _] => simp at h
  | [_, _, _, _] => simp at h
  | [_, _, _, _, _] => simp at h
  | [_, _, _, _, _, _] => simp at h
  | [_, _, _, _, _, _, _] => simp at h

theorem listCopy_length : ∀ (src dst : List Nat) (s : Nat),
    (listCopy dst s src).length = dst.length := by
  intro src
  induction src with
  | nil => intro dst s; rfl
  | cons a rest ih =>
    intro dst s
    simp only [listCopy]
    split
    · rw [ih, List.length_set]
    · rfl

theorem listCopy_eq : ∀ (src dst : List Nat) (s : Nat), s + src.length ≤ dst.length →
    listCopy dst s src = dst.take s ++ src ++ dst.drop (s + src.length) := by
  intro src
  induction src with
  | nil =>
    intro dst s h
    simp only [listCopy, List.length_nil, List.append_nil, Nat.add_zero]
    exact (List.take_append_drop s dst).symm
  | cons a rest ih =>
    intro dst s h
    simp only [List.length_cons] at h
    have hs : s < dst.length := by omega
    simp only [listCopy, if_pos hs]
    rw [ih (dst.set s a) (s + 1) (by rw [List.length_set]; omega)]
    have hlt : (dst.take s).length = s := by
      rw [List.length_take]; omega
    have htk : (dst.set s a).take (s + 1) = dst.take s ++ [a] := by
      rw [List.set_eq_take_cons_drop a hs, List.take_append_eq_append_take, hlt]
      rw [List.take_take]
      have hmin : (s + 1) ⊓ s = s := by omega
      rw [hmin]
      have h1 : s + 1 - s = 1 := by omega
      rw [h1]
      rfl
    have hdr : (dst.set s a).drop (s + 1 + rest.length) = dst.drop (s + 1 + rest.length) := by
      rw [List.set_eq_take_cons_drop a hs, List.drop_append_eq_append_drop, hlt]
      rw [List.drop_eq_nil_of_le (by omega : (dst.take s).length ≤ s + 1 + rest.length)]
      have h4 : s + 1 + rest.length - s = rest.length + 1 := by omega
      rw [h4]
      simp only [List.nil_append, List.drop_succ_cons, List.drop_drop]
    rw [htk, hdr]
    have h5 : s + 1 + rest.length = s + (rest.length + 1) := by omega
    rw [h5]
    simp [List.append_assoc]

theorem fillFold_eq : ∀ (p : Nat) (buf : List Nat), p ≤ buf.length →
    (List.range p).foldl (fun b j => b.set j (ASCIIDecimalDigits.getD 0 0)) buf
      = List.replicate p 48 ++ buf.drop p := by
  intro p
  induction p with
  | zero => intro buf _; simp
  | succ n ih =>
    intro buf h
    rw [List.range_succ, List.foldl_append]
    rw [ih buf (by omega)]
    simp only [List.foldl_cons, List.foldl_nil]
    have hgd : ASCIIDecimalDigits.getD 0 0 = 48 := rfl
    rw [hgd]
    have hrep : (List.replicate n 48).length = n := List.length_replicate n 48
    have hset : (List.replicate n 48 ++ buf.drop n).set n 48
        = List.replicate n 48 ++ (buf.drop n).set 0 48 := by
      rw [List.set_append_right n 48 (by simp), hrep, Nat.sub_self]
    rw [hset]
    have hd : buf.drop n = buf[n] :: buf.drop (n + 1) :=
      List.drop_eq_getElem_cons (by omega)
    rw [hd]
    simp only [List.set_cons_zero]
    rw [List.replicate_succ' n 48]
    simp [List.append_assoc]

theorem lorAddOfMod {a b : Nat} (k : Nat) (hb : b < 2 ^ k) (ha : a % 2 ^ k = 0) :
    a ||| b = a + b := by
  obtain ⟨c, rfl⟩ : 2 ^ k ∣ a := Nat.dvd_iff_mod_eq_zero.2 ha
  exact (Nat.mul_add_lt_is_or hb c).symm

theorem orBytes2 {b0 b1 : Nat} (h1 : b1 < 256) :
    (b0 <<< 8) ||| b1 = b0 * 2 ^ 8 + b1 := by
  rw [Nat.shiftLeft_eq]
  exact lorAddOfMod 8 (by omega) (by omega)

theorem orBytes4 {b0 b1 b2 b3 : Nat} (h1 : b1 < 256) (h2 : b2 < 256) (h3 : b3 < 256) :
    (b0 <<< 24) ||| (b1 <<< 16) ||| (b2 <<< 8) ||| b3
      = b0 * 2 ^ 24 + b1 * 2 ^ 16 + b2 * 2 ^ 8 + b3 := by
  rw [Nat.shiftLeft_eq, Nat.shiftLeft_eq, Nat.shiftLeft_eq]
  rw [lorAddOfMod 24 (show b1 * 2 ^ 16 < 2 ^ 24 by omega) (by omega)]
  rw [lorAddOfMod 16 (show b2 * 2 ^ 8 < 2 ^ 16 by omega) (by omega)]
  rw [lorAddOfMod 8 h3 (by omega)]

theorem orBytes8 {b0 b1 b2 b3 b4 b5 b6 b7 : Nat} (h1 : b1 < 256) (h2 : b2 < 256)
    (h3 : b3 < 256) (h4 : b4 < 256) (h5 : b5 < 256) (h6 : b6 < 256) (h7 : b7 < 256) :
    (b0 <<< 56) ||| (b1 <<< 48) ||| (b2 <<< 40) ||| (b3 <<< 32) |||
      (b4 <<< 24) ||| (b5 <<< 16) ||| (b6 <<< 8) ||| b7
      = b0 * 2 ^ 56 + b1 * 2 ^ 48 + b2 * 2 ^ 40 + b3 * 2 ^ 32 +
        b4 * 2 ^ 24 + b5 * 2 ^ 16 + b6 * 2 ^ 8 + b7 := by
  rw [Nat.shiftLeft_eq, Nat.shiftLeft_eq, Nat.shiftLeft_eq, Nat.shiftLeft_eq,
    Nat.shiftLeft_eq, Nat.shiftLeft_eq, Nat.shiftLeft_eq]
  rw [lorAddOfMod 56 (show b1 * 2 ^ 48 < 2 ^ 56 by omega) (by omega)]
  rw [lorAddOfMod 48 (show b2 * 2 ^ 40 < 2 ^ 48 by omega) (by omega)]
  rw [lorAddOfMod 40 (show b3 * 2 ^ 32 < 2 ^ 40 by omega) (by omega)]
  rw [lorAddOfMod 32 (show b4 * 2 ^ 24 < 2 ^ 32 by omega) (by omega)]
  rw [lorAddOfMod 24 (show b5 * 2 ^ 16 < 2 ^ 24 by omega) (by omega)]
  rw [lorAddOfMod 16 (show b6 * 2 ^ 8 < 2 ^ 16 by omega) (by omega)]
  rw [lorAddOfMod 8 h7 (by omega)]

theorem roundtrip16BE (v : Nat) (b : List Nat) (hv : v < 2 ^ 16) (hb : 2 ≤ b.length) :
    BytesToUint16 (Uint16ToBytes v b).2 = (v, ErrorCodeNil) := by
  obtain ⟨x, y, t, rfl⟩ := length_ge_two_decomp b hb
  have hlen : ¬((x :: y :: t).length < 2) := by simp only [List.length_cons]; omega
  simp only [Uint16ToBytes, if_neg hlen, putUint16BE, List.set_cons_zero, List.set_cons_succ]
  have hlen2 : ¬((v >>> 8 % 256 :: v % 256 :: t).length < 2) := by
    simp only [List.length_cons]; omega
  simp only [BytesToUint16, if_neg hlen2, List.getD_cons_zero, List.getD_cons_succ]
  rw [orBytes2 (by omega)]
  have hval : v >>> 8 % 256 * 2 ^ 8 + v % 256 = v := by
    rw [Nat.shiftRight_eq_div_pow]; omega
  rw [hval]

theorem roundtrip16LE (v : Nat) (b : List Nat) (hv : v < 2 ^ 16) (hb : 2 ≤ b.length) :
    BytesToUint16LE (Uint16ToBytesLE v b).2 = (v, ErrorCodeNil) := by
  obtain ⟨x, y, t, rfl⟩ := length_ge_two_decomp b hb
  have hlen : ¬((x :: y :: t).length < 2) := by simp only [List.length_cons]; omega
  simp only [Uint16ToBytesLE, if_neg hlen, putUint16LE, List.set_cons_zero, List.set_cons_succ]
  have hlen2 : ¬((v % 256 :: v >>> 8 % 256 :: t).length < 2) := by
    simp only [List.length_cons]; omega
  simp only [BytesToUint16LE, if_neg hlen2, List.getD_cons_zero, List.getD_cons_succ]
  rw [orBytes2 (by omega)]
  have hval : v >>> 8 % 256 * 2 ^ 8 + v % 256 = v := by
    rw [Nat.shiftRight_eq_div_pow]; omega
  rw [hval]

theorem roundtrip32BE (v : Nat) (b : List Nat) (hv : v < 2 ^ 32) (hb : 4 ≤ b.length) :
    BytesToUint32 (Uint32ToBytes v b).2 = (v, ErrorCodeNil) := by
  obtain ⟨x, y, z, w, t, rfl⟩ := length_ge_four_decomp b hb
  have hlen : ¬((x :: y :: z :: w :: t).length < 4) := by simp only [List.length_cons]; omega
  simp only [Uint32ToBytes, if_neg hlen, putUint32BE, List.set_cons_zero, List.set_cons_succ]
  have hlen2 : ¬((v >>> 24 % 256 :: v >>> 16 % 256 :: v >>> 8 % 256 :: v % 256 :: t).length
      < 4) := by simp only [List.length_cons]; omega
  simp only [BytesToUint32, if_neg hlen2, List.getD_cons_zero, List.getD_cons_succ]
  rw [orBytes4 (by omega) (by omega) (by omega)]
  have hval : v >>> 24 % 256 * 2 ^ 24 + v >>> 16 % 256 * 2 ^ 16 +
      v >>> 8 % 256 * 2 ^ 8 + v % 256 = v := by
    rw [Nat.shiftRight_eq_div_pow, Nat.shiftRight_eq_div_pow, Nat.shiftRight_eq_div_pow]
    omega
  rw [hval]

theorem roundtrip32LE (v : Nat) (b : List Nat) (hv : v < 2 ^ 32) (hb : 4 ≤ b.length) :
    BytesToUint32LE (Uint32ToBytesLE v b).2 = (v, ErrorCodeNil) := by
  obtain ⟨x, y, z, w, t, rfl⟩ := length_ge_four_decomp b hb
  have hlen : ¬((x :: y :: z :: w :: t).length < 4) := by simp only [List.length_cons]; omega
  simp only [Uint32ToBytesLE, if_neg hlen, putUint32LE, List.set_cons_zero, List.set_cons_succ]
  have hlen2 : ¬((v % 256 :: v >>> 8 % 256 :: v >>> 16 % 256 :: v >>> 24 % 256 :: t).length
      < 4) := by simp only [List.length_cons]; omega
  simp only [BytesToUint32LE, if_neg hlen2, List.getD_cons_zero, List.getD_cons_succ]
  rw [orBytes4 (by omega) (by omega) (by omega)]
  have hval : v >>> 24 % 256 * 2 ^ 24 + v >>> 16 % 256 * 2 ^ 16 +
      v >>> 8 % 256 * 2 ^ 8 + v % 256 = v := by
    rw [Nat.shiftRight_eq_div_pow, Nat.shiftRight_eq_div_pow, Nat.shiftRight_eq_div_pow]
    omega
  rw [hval]

theorem roundtrip64BE (v : Nat) (b : List Nat) (hv : v < 2 ^ 64) (hb : 8 ≤ b.length) :
    BytesToUint64 (Uint64ToBytes v b).2 = (v, ErrorCodeNil) := by
  obtain ⟨x0, x1, x2, x3, x4, x5, x6, x7, t, rfl⟩ := length_ge_eight_decomp b hb
  have hlen : ¬((x0 :: x1 :: x2 :: x3 :: x4 :: x5 :: x6 :: x7 :: t).length < 8) := by
    simp only [List.length_cons]; omega
  simp only [Uint64ToBytes, if_neg hlen, putUint64BE, List.set_cons_zero, List.set_cons_succ]
  have hlen2 : ¬((v >>> 56 % 256 :: v >>> 48 % 256 :: v >>> 40 % 256 :: v >>> 32 % 256 ::
      v >>> 24 % 256 :: v >>> 16 % 256 :: v >>> 8 % 256 :: v % 256 :: t).length < 8) := by
    simp only [List.length_cons]; omega
  simp only [BytesToUint64, if_neg hlen2, List.getD_cons_zero, List.getD_cons_succ]
  rw [orBytes8 (by omega) (by omega) (by omega) (by omega) (by omega) (by omega) (by omega)]
  have hval : v >>> 56 % 256 * 2 ^ 56 + v >>> 48 % 256 * 2 ^ 48 + v >>> 40 % 256 * 2 ^ 40 +
      v >>> 32 % 256 * 2 ^ 32 + v >>> 24 % 256 * 2 ^ 24 + v >>> 16 % 256 * 2 ^ 16 +
      v >>> 8 % 256 * 2 ^ 8 + v % 256 = v := by
    rw [Nat.shiftRight_eq_div_pow, Nat.shiftRight_eq_div_pow, Nat.shiftRight_eq_div_pow,
      Nat.shiftRight_eq_div_pow, Nat.shiftRight_eq_div_pow, Nat.shiftRight_eq_div_pow,
      Nat.shiftRight_eq_div_pow]
    omega
  rw [hval]

theorem roundtrip64LE (v : Nat) (b : List Nat) (hv : v < 2 ^ 64) (hb : 8 ≤ b.length) :
    BytesToUint64LE (Uint64ToBytesLE v b).2 = (v, ErrorCodeNil) := by
  obtain ⟨x0, x1, x2, x3, x4, x5, x6, x7, t, rfl⟩ := length_ge_eight_decomp b hb
  have hlen : ¬((x0 :: x1 :: x2 :: x3 :: x4 :: x5 :: x6 :: x7 :: t).length < 8) := by
    simp only [List.length_cons]; omega
  simp only [Uint64ToBytesLE, if_neg hlen, putUint64LE, List.set_cons_zero, List.set_cons_succ]
  have hlen2 : ¬((v % 256 :: v >>> 8 % 256 :: v >>> 16 % 256 :: v >>> 24 % 256 ::
      v >>> 32 % 256 :: v >>> 40 % 256 :: v >>> 48 % 256 :: v >>> 56 % 256 :: t).length
      < 8) := by
    simp only [List.length_cons]; omega
  simp only [BytesToUint64LE, if_neg hlen2, List.getD_cons_zero, List.getD_cons_succ]
  rw [orBytes8 (by omega) (by omega) (by omega) (by omega) (by omega) (by omega) (by omega)]
  have hval : v >>> 56 % 256 * 2 ^ 56 + v >>> 48 % 256 * 2 ^ 48 + v >>> 40 % 256 * 2 ^ 40 +
      v >>> 32 % 256 * 2 ^ 32 + v >>> 24 % 256 * 2 ^ 24 + v >>> 16 % 256 * 2 ^ 16 +
      v >>> 8 % 256 * 2 ^ 8 + v % 256 = v := by
    rw [Nat.shiftRight_eq_div_pow, Nat.shiftRight_eq_div_pow, Nat.shiftRight_eq_div_pow,
      Nat.shiftRight_eq_div_pow, Nat.shiftRight_eq_div_pow, Nat.shiftRight_eq_div_pow,
      Nat.shiftRight_eq_div_pow]
    omega
  rw [hval]

/-! ## Claim theorems -/

/-- C3: for every width W in {16, 32, 64}, both byte orders, every value of
width W and every caller buffer of length at least W/8, decoding the encoded
buffer returns exactly the value with the no-error sentinel; concretely
`BytesToUint32 [0x00, 0x00, 0x01, 0x00]` is 256 and `Uint16ToBytesLE 0x1234`
writes buffer bytes 0x34 then 0x12. -/
theorem C3_encode_decode_roundtrip :
    (∀ v b, v < 2 ^ 16 → 2 ≤ b.length →
      BytesToUint16 (Uint16ToBytes v b).2 = (v, ErrorCodeNil)) ∧
    (∀ v b, v < 2 ^ 32 → 4 ≤ b.length →
      BytesToUint32 (Uint32ToBytes v b).2 = (v, ErrorCodeNil)) ∧
    (∀ v b, v < 2 ^ 64 → 8 ≤ b.length →
      BytesToUint64 (Uint64ToBytes v b).2 = (v, ErrorCodeNil)) ∧
    (∀ v b, v < 2 ^ 16 → 2 ≤ b.length →
      BytesToUint16LE (Uint16ToBytesLE v b).2 = (v, ErrorCodeNil)) ∧
    (∀ v b, v < 2 ^ 32 → 4 ≤ b.length →
      BytesToUint32LE (Uint32ToBytesLE v b).2 = (v, ErrorCodeNil)) ∧
    (∀ v b, v < 2 ^ 64 → 8 ≤ b.length →
      BytesToUint64LE (Uint64ToBytesLE v b).2 = (v, ErrorCodeNil)) ∧
    BytesToUint32 [0x00, 0x00, 0x01, 0x00] = (256, ErrorCodeNil) ∧
    (Uint16ToBytesLE 0x1234 [0, 0]).2 = [0x34, 0x12] :=
  ⟨roundtrip16BE, roundtrip32BE, roundtrip64BE, roundtrip16LE, roundtrip32LE,
    roundtrip64LE, by decide, by decide⟩

/-- Witness for C3 at the concrete input `v = 0x1234` with a 2-byte buffer. -/
theorem C3_encode_decode_roundtrip_witness :
    BytesToUint16 (Uint16ToBytes 0x1234 [0, 0]).2 = (0x1234, ErrorCodeNil) :=
  C3_encode_decode_roundtrip.1 0x1234 [0, 0] (by decide) (by decide)

/-- C4: every byte-order encoder and decoder fails with `InvalidBufferSize`
exactly when the buffer is shorter than W/8 bytes; a failing encode leaves the
buffer untouched and a failing decode returns zero; a successful encode
returns the no-error sentinel, writes the W/8 bytes of the value, and leaves
every byte from index W/8 on unchanged. -/
theorem C4_invalid_buffer_size_iff :
    (∀ v b, ((Uint16ToBytes v b).1 = ErrorCodeBuffersInvalidBufferSize ↔ b.length < 2) ∧
      (b.length < 2 → (Uint16ToBytes v b).2 = b) ∧
      (2 ≤ b.length → (Uint16ToBytes v b).1 = ErrorCodeNil ∧
        (Uint16ToBytes v b).2.take 2 = [v >>> 8 % 256, v % 256] ∧
        (Uint16ToBytes v b).2.drop 2 = b.drop 2)) ∧
    (∀ v b, ((Uint32ToBytes v b).1 = ErrorCodeBuffersInvalidBufferSize ↔ b.length < 4) ∧
      (b.length < 4 → (Uint32ToBytes v b).2 = b) ∧
      (4 ≤ b.length → (Uint32ToBytes v b).1 = ErrorCodeNil ∧
        (Uint32ToBytes v b).2.take 4
          = [v >>> 24 % 256, v >>> 16 % 256, v >>> 8 % 256, v % 256] ∧
        (Uint32ToBytes v b).2.drop 4 = b.drop 4)) ∧
    (∀ v b, ((Uint64ToBytes v b).1 = ErrorCodeBuffersInvalidBufferSize ↔ b.length < 8) ∧
      (b.length < 8 → (Uint64ToBytes v b).2 = b) ∧
      (8 ≤ b.length → (Uint64ToBytes v b).1 = ErrorCodeNil ∧
        (Uint64ToBytes v b).2.take 8
          = [v >>> 56 % 256, v >>> 48 % 256, v >>> 40 % 256, v >>> 32 % 256,
             v >>> 24 % 256, v >>> 16 % 256, v >>> 8 % 256, v % 256] ∧
        (Uint64ToBytes v b).2.drop 8 = b.drop 8)) ∧
    (∀ v b, ((Uint16ToBytesLE v b).1 = ErrorCodeBuffersInvalidBufferSize ↔ b.length < 2) ∧
      (b.length < 2 → (Uint16ToBytesLE v b).2 = b) ∧
      (2 ≤ b.length → (Uint16ToBytesLE v b).1 = ErrorCodeNil ∧
        (Uint16ToBytesLE v b).2.take 2 = [v % 256, v >>> 8 % 256] ∧
        (Uint16ToBytesLE v b).2.drop 2 = b.drop 2)) ∧
    (∀ v b, ((Uint32ToBytesLE v b).1 = ErrorCodeBuffersInvalidBufferSize ↔ b.length < 4) ∧
      (b.length < 4 → (Uint32ToBytesLE v b).2 = b) ∧
      (4 ≤ b.length → (Uint32ToBytesLE v b).1 = ErrorCodeNil ∧
        (Uint32ToBytesLE v b).2.take 4
          = [v % 256, v >>> 8 % 256, v >>> 16 % 256, v >>> 24 % 256] ∧
        (Uint32ToBytesLE v b).2.drop 4 = b.drop 4)) ∧
    (∀ v b, ((Uint64ToBytesLE v b).1 = ErrorCodeBuffersInvalidBufferSize ↔ b.length < 8) ∧
      (b.length < 8 → (Uint64ToBytesLE v b).2 = b) ∧
      (8 ≤ b.length → (Uint64ToBytesLE v b).1 = ErrorCodeNil ∧
        (Uint64ToBytesLE v b).2.take 8
          = [v % 256, v >>> 8 % 256, v >>> 16 % 256, v >>> 24 % 256,
             v >>> 32 % 256, v >>> 40 % 256, v >>> 48 % 256, v >>> 56 % 256] ∧
        (Uint64ToBytesLE v b).2.drop 8 = b.drop 8)) ∧
    (∀ d, ((BytesToUint16 d).2 = ErrorCodeBuffersInvalidBufferSize ↔ d.length < 2) ∧
      (d.length < 2 → (BytesToUint16 d).1 = 0) ∧
      (2 ≤ d.length → (BytesToUint16 d).2 = ErrorCodeNil)) ∧
    (∀ d, ((BytesToUint32 d).2 = ErrorCodeBuffersInvalidBufferSize ↔ d.length < 4) ∧
      (d.length < 4 → (BytesToUint32 d).1 = 0) ∧
      (4 ≤ d.length → (BytesToUint32 d).2 = ErrorCodeNil)) ∧
    (∀ d, ((BytesToUint64 d).2 = ErrorCodeBuffersInvalidBufferSize ↔ d.length < 8) ∧
      (d.length < 8 → (BytesToUint64 d).1 = 0) ∧
      (8 ≤ d.length → (BytesToUint64 d).2 = ErrorCodeNil)) ∧
    (∀ d, ((BytesToUint16LE d).2 = ErrorCodeBuffersInvalidBufferSize ↔ d.length < 2) ∧
      (d.length < 2 → (BytesToUint16LE d).1 = 0) ∧
      (2 ≤ d.length → (BytesToUint16LE d).2 = ErrorCodeNil)) ∧
    (∀ d, ((BytesToUint32LE d).2 = ErrorCodeBuffersInvalidBufferSize ↔ d.length < 4) ∧
      (d.length < 4 → (BytesToUint32LE d).1 = 0) ∧
      (4 ≤ d.length → (BytesToUint32LE d).2 = ErrorCodeNil)) ∧
    (∀ d, ((BytesToUint64LE d).2 = ErrorCodeBuffersInvalidBufferSize ↔ d.length < 8) ∧
      (d.length < 8 → (BytesToUint64LE d).1 = 0) ∧
      (8 ≤ d.length → (BytesToUint64LE d).2 = ErrorCodeNil)) := by
  refine ⟨?_, ?_, ?_, ?_, ?_, ?_, ?_, ?_, ?_, ?_, ?_, ?_⟩
  · intro v b
    refine ⟨?_, fun h => by simp [Uint16ToBytes, h], fun h => ?_⟩
    · by_cases h : b.length < 2
      · simp [Uint16ToBytes, h]
      · simp [Uint16ToBytes, h, ErrorCodeNil, ErrorCodeBuffersInvalidBufferSize,
          ErrorCodeBuffersStartNumber]
    · obtain ⟨x, y, t, rfl⟩ := length_ge_two_decomp b h
      have hneg : ¬((x :: y :: t).length < 2) := by simp only [List.length_cons]; omega
      simp only [Uint16ToBytes, putUint16BE, List.set_cons_zero, List.set_cons_succ]
      rw [if_neg hneg]
      simp
  · intro v b
    refine ⟨?_, fun h => by simp [Uint32ToBytes, h], fun h => ?_⟩
    · by_cases h : b.length < 4
      · simp [Uint32ToBytes, h]
      · simp [Uint32ToBytes, h, ErrorCodeNil, ErrorCodeBuffersInvalidBufferSize,
          ErrorCodeBuffersStartNumber]
    · obtain ⟨x, y, z, w, t, rfl⟩ := length_ge_four_decomp b h
      have hneg : ¬((x :: y :: z :: w :: t).length < 4) := by
        simp only [List.length_cons]; omega
      simp only [Uint32ToBytes, putUint32BE, List.set_cons_zero, List.set_cons_succ]
      rw [if_neg hneg]
      simp
  · intro v b
    refine ⟨?_, fun h => by simp [Uint64ToBytes, h], fun h => ?_⟩
    · by_cases h : b.length < 8
      · simp [Uint64ToBytes, h]
      · simp [Uint64ToBytes, h, ErrorCodeNil, ErrorCodeBuffersInvalidBufferSize,
          ErrorCodeBuffersStartNumber]
    · obtain ⟨x0, x1, x2, x3, x4, x5, x6, x7, t, rfl⟩ := length_ge_eight_decomp b h
      have hneg : ¬((x0 :: x1 :: x2 :: x3 :: x4 :: x5 :: x6 :: x7 :: t).length < 8) := by
        simp only [List.length_cons]; omega
      simp only [Uint64ToBytes, putUint64BE, List.set_cons_zero, List.set_cons_succ]
      rw [if_neg hneg]
      simp
  · intro v b
    refine ⟨?_, fun h => by simp [Uint16ToBytesLE, h], fun h => ?_⟩
    · by_cases h : b.length < 2
      · simp [Uint16ToBytesLE, h]
      · simp [Uint16ToBytesLE, h, ErrorCodeNil, ErrorCodeBuffersInvalidBufferSize,
          ErrorCodeBuffersStartNumber]
    · obtain ⟨x, y, t, rfl⟩ := length_ge_two_decomp b h
      have hneg : ¬((x :: y :: t).length < 2) := by simp only [List.length_cons]; omega
      simp only [Uint16ToBytesLE, putUint16LE, List.set_cons_zero, List.set_cons_succ]
      rw [if_neg hneg]
      simp
  · intro v b
    refine ⟨?_, fun h => by simp [Uint32ToBytesLE, h], fun h => ?_⟩
    · by_cases h : b.length < 4
      · simp [Uint32ToBytesLE, h]
      · simp [Uint32ToBytesLE, h, ErrorCodeNil, ErrorCodeBuffersInvalidBufferSize,
          ErrorCodeBuffersStartNumber]
    · obtain ⟨x, y, z, w, t, rfl⟩ := length_ge_four_decomp b h
      have hneg : ¬((x :: y :: z :: w :: t).length < 4) := by
        simp only [List.length_cons]; omega
      simp only [Uint32ToBytesLE, putUint32LE, List.set_cons_zero, List.set_cons_succ]
      rw [if_neg hneg]
      simp
  · intro v b
    refine ⟨?_, fun h => by simp [Uint64ToBytesLE, h], fun h => ?_⟩
    · by_cases h : b.length < 8
      · simp [Uint64ToBytesLE, h]
      · simp [Uint64ToBytesLE, h, ErrorCodeNil, ErrorCodeBuffersInvalidBufferSize,
          ErrorCodeBuffersStartNumber]
    · obtain ⟨x0, x1, x2, x3, x4, x5, x6, x7, t, rfl⟩ := length_ge_eight_decomp b h
      have hneg : ¬((x0 :: x1 :: x2 :: x3 :: x4 :: x5 :: x6 :: x7 :: t).length < 8) := by
        simp only [List.length_cons]; omega
      simp only [Uint64ToBytesLE, putUint64LE, List.set_cons_zero, List.set_cons_succ]
      rw [if_neg hneg]
      simp
  · intro d
    refine ⟨?_, fun h => by simp [BytesToUint16, h], fun h => ?_⟩
    · by_cases h : d.length < 2
      · simp [BytesToUint16, h]
      · simp [BytesToUint16, h, ErrorCodeNil, ErrorCodeBuffersInvalidBufferSize,
          ErrorCodeBuffersStartNumber]
    · have hneg : ¬(d.length < 2) := by omega
      simp [BytesToUint16, hneg]
  · intro d
    refine ⟨?_, fun h => by simp [BytesToUint32, h], fun h => ?_⟩
    · by_cases h : d.length < 4
      · simp [BytesToUint32, h]
      · simp [BytesToUint32, h, ErrorCodeNil, ErrorCodeBuffersInvalidBufferSize,
          ErrorCodeBuffersStartNumber]
    · have hneg : ¬(d.length < 4) := by omega
      simp [BytesToUint32, hneg]
  · intro d
    refine ⟨?_, fun h => by simp [BytesToUint64, h], fun h => ?_⟩
    · by_cases h : d.length < 8
      · simp [BytesToUint64, h]
      · simp [BytesToUint64, h, ErrorCodeNil, ErrorCodeBuffersInvalidBufferSize,
          ErrorCodeBuffersStartNumber]
    · have hneg : ¬(d.length < 8) := by omega
      simp [BytesToUint64, hneg]
  · intro d
    refine ⟨?_, fun h => by simp [BytesToUint16LE, h], fun h => ?_⟩
    · by_cases h : d.length < 2
      · simp [BytesToUint16LE, h]
      · simp [BytesToUint16LE, h, ErrorCodeNil, ErrorCodeBuffersInvalidBufferSize,
          ErrorCodeBuffersStartNumber]
    · have hneg : ¬(d.length < 2) := by omega
      simp [BytesToUint16LE, hneg]
  · intro d
    refine ⟨?_, fun h => by simp [BytesToUint32LE, h], fun h => ?_⟩
    · by_cases h : d.length < 4
      · simp [BytesToUint32LE, h]
      · simp [BytesToUint32LE, h, ErrorCodeNil, ErrorCodeBuffersInvalidBufferSize,
          ErrorCodeBuffersStartNumber]
    · have hneg : ¬(d.length < 4) := by omega
      simp [BytesToUint32LE, hneg]
  · intro d
    refine ⟨?_, fun h => by simp [BytesToUint64LE, h], fun h => ?_⟩
    · by_cases h : d.length < 8
      · simp [BytesToUint64LE, h]
      · simp [BytesToUint64LE, h, ErrorCodeNil, ErrorCodeBuffersInvalidBufferSize,
          ErrorCodeBuffersStartNumber]
    · have hneg : ¬(d.length < 8) := by omega
      simp [BytesToUint64LE, hneg]

/-- Witness for C4 at the concrete input `v = 1` with an undersized 1-byte
buffer and a correctly sized 2-byte buffer. -/
theorem C4_invalid_buffer_size_iff_witness :
    ((Uint16ToBytes 1 [9]).1 = ErrorCodeBuffersInvalidBufferSize ↔ [(9 : Nat)].length < 2) ∧
    ([(9 : Nat)].length < 2 → (Uint16ToBytes 1 [9]).2 = [9]) ∧
    (2 ≤ [(9 : Nat), 9].length → (Uint16ToBytes 1 [9, 9]).1 = ErrorCodeNil ∧
      (Uint16ToBytes 1 [9, 9]).2.take 2 = [1 >>> 8 % 256, 1 % 256] ∧
      (Uint16ToBytes 1 [9, 9]).2.drop 2 = [(9 : Nat), 9].drop 2) :=
  ⟨(C4_invalid_buffer_size_iff.1 1 [9]).1,
   (C4_invalid_buffer_size_iff.1 1 [9]).2.1,
   (C4_invalid_buffer_size_iff.1 1 [9, 9]).2.2⟩

theorem foldl_hexWriteStep_length (value : Nat) (size : Int) :
    ∀ (l : List Nat) (buf : List Nat),
      (l.foldl (hexWriteStep value size) buf).length = buf.length := by
  intro l
  induction l with
  | nil => intro buf; rfl
  | cons c cs ih =>
    intro buf
    simp only [List.foldl_cons]
    rw [ih]
    simp only [hexWriteStep]
    split
    · rw [List.length_set]
    · rfl

theorem foldl_hexWriteStep_getElem? (value : Nat) (size : Int) :
    ∀ (n : Nat) (buf : List Nat) (c : Nat), c < buf.length →
      ((List.range n).foldl (hexWriteStep value size) buf)[c]? =
        if c < n ∧ 0 ≤ UintToHexIndex value size (c : Int)
        then some (ASCIIHexDigits.getD (UintToHexIndex value size (c : Int)).toNat 0)
        else buf[c]? := by
  intro n
  induction n with
  | zero =>
    intro buf c hc
    simp
  | succ m ih =>
    intro buf c hc
    rw [List.range_succ, List.foldl_append]
    simp only [List.foldl_cons, List.foldl_nil]
    have hBlen : ((List.range m).foldl (hexWriteStep value size) buf).length = buf.length :=
      foldl_hexWriteStep_length value size _ buf
    by_cases hin : 0 ≤ UintToHexIndex value size (m : Int)
    · simp only [hexWriteStep, if_pos hin]
      by_cases hcm : c = m
      · subst hcm
        rw [List.getElem?_set_self (by omega)]
        rw [if_pos ⟨Nat.lt_succ_self c, hin⟩]
      · rw [List.getElem?_set_ne (fun hh => hcm hh.symm)]
        rw [ih buf c hc]
        split_ifs with h1 h2 h2 <;> first | rfl | omega
    · simp only [hexWriteStep, if_neg hin]
      rw [ih buf c hc]
      by_cases hcm : c = m
      · subst hcm
        split_ifs with h1 h2 h2 <;> first | rfl | (exact absurd h1.2 hin) | (exact absurd h2.2 hin)
      · split_ifs with h1 h2 h2 <;> first | rfl | omega

theorem UintToHexIndex_of_lt (value : Nat) (size : Int) (k c : Nat)
    (hsize : size = 4 * (k : Int)) (_hk : 1 ≤ k) (hc : c < k) :
    UintToHexIndex value size (c : Int) = ((value >>> ((k - 1 - c) * 4)) &&& 15 : Nat) := by
  subst hsize
  unfold UintToHexIndex
  rw [if_neg (by omega)]
  have harg : ((4 * (k : Int) / 4 - 1 - (c : Int)) * 4).toNat = (k - 1 - c) * 4 := by omega
  rw [harg]

theorem hexViewTake (value : Nat) (size : Int) (k : Nat)
    (hsize : size = 4 * (k : Int)) (hk : 1 ≤ k) (hk16 : k ≤ 16)
    (buf : List Nat) (hb : buf.length = 16) :
    ((List.range buf.length).foldl (hexWriteStep value size) buf).take k
      = hexRep k value := by
  apply List.ext_getElem?
  intro c
  rw [List.getElem?_take]
  by_cases hc : c < k
  · rw [if_pos hc]
    rw [hb, foldl_hexWriteStep_getElem? value size 16 buf c (by omega)]
    rw [UintToHexIndex_of_lt value size k c hsize hk hc]
    rw [if_pos ⟨by omega, Int.natCast_nonneg _⟩]
    unfold hexRep
    rw [List.getElem?_map, List.getElem?_range hc]
    simp only [Option.map_some']
    have hdig : (value >>> ((k - 1 - c) * 4)) &&& 15 = value / 16 ^ (k - 1 - c) % 16 := by
      rw [Nat.shiftRight_eq_div_pow]
      have h15 : (15 : Nat) = 2 ^ 4 - 1 := rfl
      rw [h15, Nat.and_pow_two_sub_one_eq_mod]
      rw [Nat.mul_comm (k - 1 - c) 4, Nat.pow_mul]
    rw [Int.toNat_natCast, hdig]
  · rw [if_neg hc]
    symm
    rw [List.getElem?_eq_none]
    unfold hexRep
    simp only [List.length_map, List.length_range]
    omega

/-- C5: each `UintNToHex` returns the view of exactly W/4 bytes holding the
uppercase hexadecimal digits of the value, most-significant digit first, with
no leading-zero suppression; concretely the 8-bit zero renders as `"00"` and
`Uint32ToHex 0xDEADBEEF` renders as `"DEADBEEF"`. -/
theorem C5_hex_fixed_width (value : Nat) (buf : List Nat) (hb : buf.length = 16) :
    (value < 2 ^ 8 → (Uint8ToHex value buf).1 = hexRep 2 value) ∧
    (value < 2 ^ 16 → (Uint16ToHex value buf).1 = hexRep 4 value) ∧
    (value < 2 ^ 32 → (Uint32ToHex value buf).1 = hexRep 8 value) ∧
    (value < 2 ^ 64 → (Uint64ToHex value buf).1 = hexRep 16 value) ∧
    (Uint8ToHex 0 (List.replicate 16 0)).1 = [48, 48] ∧
    (Uint32ToHex 0xDEADBEEF (List.replicate 16 0)).1
      = [68, 69, 65, 68, 66, 69, 69, 70] := by
  refine ⟨fun _ => ?_, fun _ => ?_, fun _ => ?_, fun _ => ?_, by decide, by decide⟩
  · exact hexViewTake value 8 2 (by norm_num) (by norm_num) (by norm_num) buf hb
  · exact hexViewTake value 16 4 (by norm_num) (by norm_num) (by norm_num) buf hb
  · exact hexViewTake value 32 8 (by norm_num) (by norm_num) (by norm_num) buf hb
  · exact hexViewTake value 64 16 (by norm_num) (by norm_num) (by norm_num) buf hb

/-- Witness for C5 at the concrete input `value = 0xAB` on the zeroed hex
buffer. -/
theorem C5_hex_fixed_width_witness :
    0xAB < 2 ^ 8 ∧ (Uint8ToHex 0xAB (List.replicate 16 0)).1 = hexRep 2 0xAB :=
  ⟨by decide, (C5_hex_fixed_width 0xAB (List.replicate 16 0) (by decide)).1 (by decide)⟩

/-- Value of a little-endian digit list. -/
def decValLE : List Nat → Nat
  | [] => 0
  | d :: ds => d + 10 * decValLE ds

theorem natDigitsLE_zero : natDigitsLE 0 = [] := by
  rw [natDigitsLE]
  rfl

theorem natDigitsLE_of_pos (v : Nat) (h : v ≠ 0) :
    natDigitsLE v = v % 10 :: natDigitsLE (v / 10) := by
  rw [natDigitsLE]
  exact dif_neg h

theorem length_natDigitsLE_le (n : Nat) : ∀ v, v < 10 ^ n → (natDigitsLE v).length ≤ n := by
  induction n with
  | zero =>
    intro v hv
    have hv0 : v = 0 := by simpa using hv
    subst hv0
    simp [natDigitsLE_zero]
  | succ m ih =>
    intro v hv
    by_cases h : v = 0
    · subst h; simp [natDigitsLE_zero]
    · rw [natDigitsLE_of_pos v h]
      simp only [List.length_cons]
      rw [Nat.pow_succ] at hv
      have hq : v / 10 < 10 ^ m := by omega
      exact Nat.succ_le_succ (ih _ hq)

theorem natDigitsLE_all_lt (v : Nat) : ∀ d ∈ natDigitsLE v, d < 10 := by
  induction v using Nat.strong_induction_on with
  | _ v ih =>
    by_cases h : v = 0
    · subst h; simp [natDigitsLE_zero]
    · rw [natDigitsLE_of_pos v h]
      intro d hd
      rcases List.mem_cons.1 hd with h1 | h2
      · omega
      · exact ih (v / 10) (Nat.div_lt_self (Nat.pos_of_ne_zero h) (by omega)) d h2

theorem natDigitsLE_msd (v : Nat) : 0 < v →
    ∃ d ds, (natDigitsLE v).reverse = d :: ds ∧ d ≠ 0 ∧ d < 10 := by
  induction v using Nat.strong_induction_on with
  | _ v ih =>
    intro hv
    rw [natDigitsLE_of_pos v (by omega)]
    by_cases h10 : v / 10 = 0
    · rw [h10, natDigitsLE_zero]
      exact ⟨v % 10, [], by simp, by omega, by omega⟩
    · obtain ⟨d, ds, hrev, hd0, hd10⟩ :=
        ih (v / 10) (Nat.div_lt_self hv (by omega)) (Nat.pos_of_ne_zero h10)
      refine ⟨d, ds ++ [v % 10], ?_, hd0, hd10⟩
      rw [List.reverse_cons, hrev]
      rfl

theorem decValLE_natDigitsLE (v : Nat) : decValLE (natDigitsLE v) = v := by
  induction v using Nat.strong_induction_on with
  | _ v ih =>
    by_cases h : v = 0
    · subst h; simp [natDigitsLE_zero, decValLE]
    · rw [natDigitsLE_of_pos v h]
      simp only [decValLE]
      rw [ih (v / 10) (Nat.div_lt_self (Nat.pos_of_ne_zero h) (by omega))]
      omega

theorem foldl_rev_digits (ds : List Nat) : ∀ (a : Nat),
    ds.reverse.foldl (fun acc d => acc * 10 + d) a = a * 10 ^ ds.length + decValLE ds := by
  induction ds with
  | nil => intro a; simp [decValLE]
  | cons d ds ih =>
    intro a
    rw [List.reverse_cons, List.foldl_append, ih]
    simp only [List.foldl_cons, List.foldl_nil, decValLE, List.length_cons]
    ring

theorem decDigit_getD : ∀ d, d < 10 → ASCIIDecimalDigits.getD d 0 = 48 + d := by decide

theorem decRep_zero : decRep 0 = [48] := rfl

theorem decRep_of_pos (v : Nat) (h : v ≠ 0) :
    decRep v = (natDigitsLE v).reverse.map (fun d => 48 + d) := by
  unfold decRep
  rw [if_neg h]

theorem decRep_foldl (v : Nat) :
    (decRep v).foldl (fun a x => a * 10 + (x - 48)) 0 = v := by
  by_cases h : v = 0
  · subst h; rfl
  · rw [decRep_of_pos v h, List.foldl_map]
    have hfun : (fun (a : Nat) d => a * 10 + (48 + d - 48)) = fun a d => a * 10 + d := by
      funext a d; omega
    rw [hfun, foldl_rev_digits]
    rw [decValLE_natDigitsLE]
    simp

theorem decRep_digits (v : Nat) : ∀ x ∈ decRep v, 48 ≤ x ∧ x ≤ 57 := by
  by_cases h : v = 0
  · subst h; intro x hx; rw [decRep_zero] at hx; simp at hx; omega
  · rw [decRep_of_pos v h]
    intro x hx
    rcases List.mem_map.1 hx with ⟨d, hd, rfl⟩
    have : d < 10 := natDigitsLE_all_lt v d (List.mem_reverse.1 hd)
    omega

theorem decRep_head (v : Nat) (hv : 0 < v) :
    ∃ x t, decRep v = x :: t ∧ 49 ≤ x ∧ x ≤ 57 := by
  obtain ⟨d, ds, hrev, hd0, hd10⟩ := natDigitsLE_msd v hv
  rw [decRep_of_pos v (by omega), hrev]
  exact ⟨48 + d, ds.map (fun d => 48 + d), rfl, by omega, by omega⟩

theorem decRep_ne_nil (v : Nat) : decRep v ≠ [] := by
  by_cases h : v = 0
  · subst h; simp [decRep_zero]
  · obtain ⟨x, t, he, _, _⟩ := decRep_head v (Nat.pos_of_ne_zero h)
    simp [he]

theorem uintToDecimalLoop_zero : ∀ (i : Nat) (buf : List Nat),
    uintToDecimalLoop 0 i buf = (i, buf) := by
  intro i buf
  cases i <;> simp [uintToDecimalLoop]

theorem take_set_le (l : List Nat) (m n : Nat) (a : Nat) (h : m ≤ n) :
    (l.set n a).take m = l.take m := by
  apply List.ext_getElem?
  intro c
  rw [List.getElem?_take, List.getElem?_take]
  split
  · next hc => rw [List.getElem?_set_ne (by omega)]
  · rfl

theorem drop_set_self (l : List Nat) (j a : Nat) (h : j < l.length) :
    (l.set j a).drop j = a :: l.drop (j + 1) := by
  rw [List.drop_set]
  rw [if_neg (by omega), Nat.sub_self]
  rw [List.drop_eq_getElem_cons h]
  rw [List.set_cons_zero]

theorem uintToDecimalLoop_spec : ∀ (v i : Nat) (buf : List Nat), i ≤ buf.length →
    (natDigitsLE v).length ≤ i →
    uintToDecimalLoop v i buf =
      (i - (natDigitsLE v).length,
       buf.take (i - (natDigitsLE v).length) ++
         (natDigitsLE v).reverse.map (fun d => ASCIIDecimalDigits.getD d 0) ++
         buf.drop i) := by
  intro v
  induction v using Nat.strong_induction_on with
  | _ v ih =>
    intro i buf hi hlen
    by_cases hv : v = 0
    · subst hv
      rw [uintToDecimalLoop_zero, natDigitsLE_zero]
      simp [List.take_append_drop, hi]
    · rw [natDigitsLE_of_pos v hv] at hlen
      simp only [List.length_cons] at hlen
      obtain ⟨j, rfl⟩ : ∃ j, i = j + 1 := ⟨i - 1, by omega⟩
      simp only [uintToDecimalLoop, if_pos (Nat.pos_of_ne_zero hv)]
      rw [ih (v / 10) (Nat.div_lt_self (Nat.pos_of_ne_zero hv) (by omega)) j
        (buf.set j (ASCIIDecimalDigits.getD (v % 10) 0))
        (by rw [List.length_set]; omega) (by omega)]
      rw [natDigitsLE_of_pos v hv]
      simp only [List.length_cons, List.reverse_cons, List.map_append, List.map_cons,
        List.map_nil]
      have hfst : j - (natDigitsLE (v / 10)).length
          = j + 1 - ((natDigitsLE (v / 10)).length + 1) := by omega
      rw [take_set_le buf _ j _ (by omega)]
      rw [drop_set_self buf j _ (by omega)]
      rw [hfst]
      simp [List.append_assoc]

theorem UintToDecimal_spec (v : Nat) (buf : List Nat) (hb : buf.length = 20)
    (hv : v < 2 ^ 64) :
    UintToDecimal v buf = (decRep v, buf.take (20 - (decRep v).length) ++ decRep v) := by
  have hpow : v < 10 ^ 20 := lt_of_lt_of_le hv (by norm_num)
  by_cases h : v = 0
  · subst h
    have hred : UintToDecimal 0 buf
        = ((buf.set (buf.length - 1) 48).drop (buf.length - 1),
           buf.set (buf.length - 1) 48) := by
      simp only [UintToDecimal]
      rw [if_true]
      rw [uintToDecimalLoop_zero]
      rfl
    rw [hred]
    have h19 : buf.length - 1 = 19 := by omega
    rw [h19]
    have hset : buf.set 19 48 = buf.take 19 ++ [48] := by
      rw [List.set_eq_take_cons_drop _ (by omega)]
      rw [List.drop_eq_nil_of_le (by omega)]
    rw [hset]
    rw [List.drop_left' (by rw [List.length_take]; omega)]
    rw [decRep_zero]
    simp
  · simp only [UintToDecimal, if_neg h]
    rw [uintToDecimalLoop_spec v buf.length buf (Nat.le_refl _)
      (by rw [hb]; exact length_natDigitsLE_le 20 v hpow)]
    have hdrop : buf.drop buf.length = [] := List.drop_eq_nil_of_le (Nat.le_refl _)
    rw [hdrop, List.append_nil]
    have hmap : (natDigitsLE v).reverse.map (fun d => ASCIIDecimalDigits.getD d 0)
        = decRep v := by
      rw [decRep_of_pos v h]
      apply List.map_congr_left
      intro d hd
      exact decDigit_getD d (natDigitsLE_all_lt v d (List.mem_reverse.1 hd))
    rw [hmap]
    have hlenrep : (decRep v).length ≤ 20 := by
      rw [decRep_of_pos v h]
      simp only [List.length_map, List.length_reverse]
      exact length_natDigitsLE_le 20 v hpow
    have hlen2 : (decRep v).length = (natDigitsLE v).length := by
      rw [decRep_of_pos v h]
      simp
    rw [List.drop_left' (by rw [List.length_take]; omega)]
    rw [hb, hlen2]

/-- C7: `UintToDecimal` returns the minimal decimal ASCII representation:
every byte is a decimal digit glyph, the digits read back as the value, there
is no leading zero glyph unless the value is zero, and zero yields exactly the
single byte `"0"`. -/
theorem C7_minimal_decimal (v : Nat) (buf : List Nat) (hv : v < 2 ^ 64)
    (hb : buf.length = 20) :
    (∀ x ∈ (UintToDecimal v buf).1, 48 ≤ x ∧ x ≤ 57) ∧
    ((UintToDecimal v buf).1.foldl (fun a x => a * 10 + (x - 48)) 0 = v) ∧
    (v = 0 → (UintToDecimal v buf).1 = [48]) ∧
    (0 < v → ∃ x t, (UintToDecimal v buf).1 = x :: t ∧ 49 ≤ x ∧ x ≤ 57) := by
  have hspec := UintToDecimal_spec v buf hb hv
  rw [hspec]
  refine ⟨decRep_digits v, decRep_foldl v, fun h0 => by rw [h0, decRep_zero],
    decRep_head v⟩

/-- Witness for C7 at the concrete input `v = 407` on the zeroed decimal
buffer. -/
theorem C7_minimal_decimal_witness :
    (∀ x ∈ (UintToDecimal 407 (List.replicate 20 0)).1, 48 ≤ x ∧ x ≤ 57) ∧
    ((UintToDecimal 407 (List.replicate 20 0)).1.foldl
      (fun a x => a * 10 + (x - 48)) 0 = 407) ∧
    ((407 : Nat) = 0 → (UintToDecimal 407 (List.replicate 20 0)).1 = [48]) ∧
    (0 < 407 → ∃ x t, (UintToDecimal 407 (List.replicate 20 0)).1 = x :: t ∧
      49 ≤ x ∧ x ≤ 57) :=
  C7_minimal_decimal 407 (List.replicate 20 0) (by decide) (by decide)

theorem decRep_length_le (v : Nat) (hv : v < 2 ^ 64) : (decRep v).length ≤ 20 := by
  by_cases h : v = 0
  · subst h; rw [decRep_zero]; simp
  · rw [decRep_of_pos v h]
    simp only [List.length_map, List.length_reverse]
    exact length_natDigitsLE_le 20 v (lt_of_lt_of_le hv (by norm_num))

theorem UintToDecimalFixed_congr (v : Nat) (width : Int) (buf view st : List Nat)
    (h : UintToDecimal v buf = (view, st)) :
    UintToDecimalFixed v width buf =
      (if width - (view.length : Int) ≤ 0 then some (view, st)
       else if (st.length : Int) < width - (view.length : Int) then none
       else
         let buf2 := listCopy st (width - (view.length : Int)).toNat view
         let buf3 := (List.range (width - (view.length : Int)).toNat).foldl
           (fun b j => b.set j (ASCIIDecimalDigits.getD 0 0)) buf2
         if (buf3.length : Int) < width then none
         else some (buf3.take width.toNat, buf3)) := by
  simp only [UintToDecimalFixed, h]

theorem UintToDecimalFixed_view (v : Nat) (width : Int) (buf : List Nat)
    (hv : v < 2 ^ 64) (hb : buf.length = 20) (hw : width ≤ 20) :
    ∃ st, UintToDecimalFixed v width buf
      = some ((if ((decRep v).length : Int) < width
          then List.replicate (width.toNat - (decRep v).length) 48 ++ decRep v
          else decRep v), st) := by
  have hspec := UintToDecimal_spec v buf hb hv
  have hL1 : 1 ≤ (decRep v).length := List.length_pos.2 (decRep_ne_nil v)
  have hL20 : (decRep v).length ≤ 20 := decRep_length_le v hv
  have hstlen : (buf.take (20 - (decRep v).length) ++ decRep v).length = 20 := by
    rw [List.length_append, List.length_take]
    omega
  rw [UintToDecimalFixed_congr v width buf (decRep v)
    (buf.take (20 - (decRep v).length) ++ decRep v) hspec]
  dsimp only []
  by_cases hpad : width - ((decRep v).length : Int) ≤ 0
  · rw [if_pos hpad, if_neg (by omega)]
    exact ⟨_, rfl⟩
  · rw [if_neg hpad]
    rw [if_neg (by rw [hstlen]; omega)]
    have hpadnat : (width - ((decRep v).length : Int)).toNat
        = width.toNat - (decRep v).length := by omega
    have hwidthnat : (width - ((decRep v).length : Int)).toNat + (decRep v).length
        = width.toNat := by omega
    set st0 := buf.take (20 - (decRep v).length) ++ decRep v with hst0
    have hcopy : listCopy st0 (width - ((decRep v).length : Int)).toNat (decRep v)
        = st0.take (width - ((decRep v).length : Int)).toNat ++ decRep v ++
          st0.drop ((width - ((decRep v).length : Int)).toNat + (decRep v).length) := by
      apply listCopy_eq
      rw [hstlen]
      omega
    rw [hcopy]
    have hfill := fillFold_eq (width - ((decRep v).length : Int)).toNat
      (st0.take (width - ((decRep v).length : Int)).toNat ++ decRep v ++
        st0.drop ((width - ((decRep v).length : Int)).toNat + (decRep v).length))
      (by
        rw [List.length_append, List.length_append, List.length_take, List.length_drop,
          hstlen]
        omega)
    rw [hfill]
    have htklen : (st0.take (width - ((decRep v).length : Int)).toNat).length
        = (width - ((decRep v).length : Int)).toNat := by
      rw [List.length_take, hstlen]
      omega
    rw [List.append_assoc (st0.take (width - ((decRep v).length : Int)).toNat)]
    rw [List.drop_left' htklen]
    have hlen3 : (List.replicate (width - ((decRep v).length : Int)).toNat 48 ++
        (decRep v ++ st0.drop ((width - ((decRep v).length : Int)).toNat +
          (decRep v).length))).length = 20 := by
      rw [List.length_append, List.length_replicate, List.length_append, List.length_drop,
        hstlen]
      omega
    rw [if_neg (by rw [hlen3]; omega)]
    have hview : (List.replicate (width - ((decRep v).length : Int)).toNat 48 ++
        (decRep v ++ st0.drop ((width - ((decRep v).length : Int)).toNat +
          (decRep v).length))).take width.toNat
        = List.replicate (width.toNat - (decRep v).length) 48 ++ decRep v := by
      rw [List.take_append_eq_append_take]
      rw [List.take_of_length_le (by rw [List.length_replicate]; omega)]
      rw [List.length_replicate]
      congr 1
      · rw [hpadnat]
      · rw [List.take_append_eq_append_take]
        rw [List.take_of_length_le (by omega)]
        have hz : width.toNat - (width - ((decRep v).length : Int)).toNat
            - (decRep v).length = 0 := by omega
        rw [hz]
        simp
    rw [hview]
    rw [if_pos (by omega : ((decRep v).length : Int) < width)]
    exact ⟨_, rfl⟩

/-- C6 (amended): for widths at most the 20-byte scratch capacity, a value
whose unpadded representation is shorter than the width is left-padded with
the zero glyph to exactly the width, and a value at least as long as the
width is returned unpadded; for widths above 20 the function instead performs
an out-of-range slice of the 20-byte buffer (see the counterexample). -/
theorem C6_fixed_width_padding (v : Nat) (width : Int) (buf : List Nat)
    (hv : v < 2 ^ 64) (hb : buf.length = 20) (hw : width ≤ 20) :
    (((UintToDecimal v buf).1.length : Int) < width →
      ∃ st, UintToDecimalFixed v width buf
        = some (List.replicate (width.toNat - (UintToDecimal v buf).1.length) 48
            ++ (UintToDecimal v buf).1, st) ∧
          (List.replicate (width.toNat - (UintToDecimal v buf).1.length) 48
            ++ (UintToDecimal v buf).1).length = width.toNat) ∧
    (width ≤ ((UintToDecimal v buf).1.length : Int) →
      ∃ st, UintToDecimalFixed v width buf = some ((UintToDecimal v buf).1, st)) := by
  have hview : (UintToDecimal v buf).1 = decRep v := by
    rw [UintToDecimal_spec v buf hb hv]
  rw [hview]
  obtain ⟨st, hfix⟩ := UintToDecimalFixed_view v width buf hv hb hw
  constructor
  · intro hlt
    rw [if_pos hlt] at hfix
    refine ⟨st, hfix, ?_⟩
    rw [List.length_append, List.length_replicate]
    omega
  · intro hge
    rw [if_neg (by omega)] at hfix
    exact ⟨st, hfix⟩

/-- Counterexample to C6 as frozen: at `v = 1`, `width = 22` the unpadded
representation has length 1 < 22, yet the function does not return a view of
length 22 — the Go code slices the 20-byte scratch buffer beyond its length
(a runtime panic, modelled as `none`). -/
theorem C6_fixed_width_padding_counterexample :
    (UintToDecimal 1 (List.replicate 20 0)).1.length = 1 ∧
    UintToDecimalFixed 1 22 (List.replicate 20 0) = none := by
  constructor <;> decide

/-- Witness for C6 at the concrete input `v = 5`, `width = 3`. -/
theorem C6_fixed_width_padding_witness :
    ∃ st, UintToDecimalFixed 5 3 (List.replicate 20 0)
      = some (List.replicate ((3 : Int).toNat -
          (UintToDecimal 5 (List.replicate 20 0)).1.length) 48
        ++ (UintToDecimal 5 (List.replicate 20 0)).1, st) ∧
      (List.replicate ((3 : Int).toNat -
          (UintToDecimal 5 (List.replicate 20 0)).1.length) 48
        ++ (UintToDecimal 5 (List.replicate 20 0)).1).length = (3 : Int).toNat :=
  (C6_fixed_width_padding 5 3 (List.replicate 20 0) (by decide) (by decide)
    (by decide)).1 (by decide)

/-- C9 (amended): `UintToDecimal` and `IntToDecimal` are total, and
`UintToDecimalFixed` completes without any error path or out-of-range access
for every 64-bit value and every width at most the 20-byte scratch capacity;
for larger widths the slice of the scratch buffer is out of range (see the
counterexample). -/
theorem C9_decimal_never_fails (v : Nat) (width : Int) (buf : List Nat)
    (hv : v < 2 ^ 64) (hb : buf.length = 20) (hw : width ≤ 20) :
    (UintToDecimalFixed v width buf).isSome := by
  obtain ⟨st, hfix⟩ := UintToDecimalFixed_view v width buf hv hb hw
  rw [hfix]
  rfl

/-- Counterexample to C9 as frozen: at `v = 0`, `width = 21` (one more than
the scratch capacity) the final slice `UintToDecimalBuffer[:width]` is out of
range — a Go runtime panic, modelled as `none`, not a successful
completion. -/
theorem C9_decimal_never_fails_counterexample :
    UintToDecimalFixed 0 21 (List.replicate 20 5) = none := by decide

/-- Witness for C9 at the concrete input `v = 7`, `width = 4`. -/
theorem C9_decimal_never_fails_witness :
    (UintToDecimalFixed 7 4 (List.replicate 20 0)).isSome :=
  C9_decimal_never_fails 7 4 (List.replicate 20 0) (by decide) (by decide) (by decide)

/-- C1 (code bug): evaluating `IntToDecimal` at the most negative int64 value
-2^63.  Go's `v = -v` overflows back to -2^63, the digit loop (guarded by
`v > 0`) never runs, and the returned view is the single minus-sign byte 45
("-") instead of "-9223372036854775808" as the spec requires. -/
theorem C1_int_to_decimal_min_int64_bug :
    (IntToDecimal (-(2 ^ 63)) (List.replicate 20 0)).1 = [45] := by decide

attribute [local semireducible] Rat.mul Rat.sub Rat.add in
/-- C2 (code bug): `Float64ToDecimal(1.5, 2)` does yield "1.50" (bytes
49 46 53 48) with the no-error sentinel, but `Float64ToDecimal(-2.25, 1)`
yields "-2.." (bytes 45 50 46 46), not "-2.2" (bytes 45 50 46 50): the
fractional digit is computed as `int(-2.5) = -2` and rendered as
`byte('0' - 2) = '.'` because the loop never takes the magnitude of a
negative fractional part.  1.5 = 3/2 and -2.25 = -9/4 are dyadic rationals on
which the float64 arithmetic is exact, so the rational model reproduces the
Go computation bit for bit. -/
theorem C2_float64_decimal_vectors :
    (Float64ToDecimal (mkRat 3 2) 2 (List.replicate 8 0) (List.replicate 20 0)).map
        (fun r => (r.1, r.2.1)) = some ([49, 46, 53, 48], ErrorCodeNil) ∧
    (Float64ToDecimal (mkRat (-9) 4) 1 (List.replicate 8 0) (List.replicate 20 0)).map
        (fun r => (r.1, r.2.1)) = some ([45, 50, 46, 46], ErrorCodeNil) := by
  constructor <;> decide

/-- C8 (amended): restricted to inputs whose signed integer-part
representation fits together with the separator in the 8-byte float buffer
(length + 1 at most 8), `Float64ToDecimal` returns
`TooMuchPrecisionForFloat` exactly when the precision exceeds the remaining
capacity `8 - (integer-part length + 1)`, and the no-error sentinel
otherwise; without that restriction the separator write itself is out of
range before any error can be returned (see the counterexample). -/
theorem C8_precision_error_iff (x : Rat) (precision : Int) (fbuf ibuf : List Nat)
    (hf : fbuf.length = 8) (_hi : ibuf.length = 20)
    (hfits : (IntToDecimal (ratTrunc x) ibuf).1.length + 1 ≤ 8) :
    (Float64ToDecimal x precision fbuf ibuf).map (fun r => r.2.1)
      = some (if (8 : Int) - ((IntToDecimal (ratTrunc x) ibuf).1.length + 1) < precision
          then ErrorCodeBuffersTooMuchPrecisionDigitsForFloat64
          else ErrorCodeNil) := by
  simp only [Float64ToDecimal]
  have hcopylen : (listCopy fbuf 0 (IntToDecimal (ratTrunc x) ibuf).1).length = 8 := by
    rw [listCopy_length]; exact hf
  rw [if_neg (by rw [hcopylen]; omega)]
  have hsetlen : ((listCopy fbuf 0 (IntToDecimal (ratTrunc x) ibuf).1).set
      (IntToDecimal (ratTrunc x) ibuf).1.length 46).length = 8 := by
    rw [List.length_set, hcopylen]
  rw [hsetlen]
  by_cases hc : (8 : Int) - ((IntToDecimal (ratTrunc x) ibuf).1.length + 1) < precision
  · rw [if_pos (by push_cast; omega), if_pos hc]
    rfl
  · rw [if_neg (by push_cast; omega), if_neg hc]
    rfl

/-- Counterexample to C8 as frozen: at `x = 12345678.0` (integer-part
representation of length 8) with precision 5, the remaining capacity
`8 - (8 + 1)` is negative, so the claim demands the
`TooMuchPrecisionForFloat` error; instead the separator write at index 8 of
the 8-byte buffer is out of range — a Go runtime panic, modelled as `none`,
before the precision check is reached. -/
theorem C8_precision_error_iff_counterexample :
    (IntToDecimal (ratTrunc (mkRat 12345678 1)) (List.replicate 20 0)).1.length = 8 ∧
    Float64ToDecimal (mkRat 12345678 1) 5 (List.replicate 8 0)
      (List.replicate 20 0) = none := by
  constructor <;> decide

/-- Witness for C8 at the concrete input `x = 1.5`, precision 99 (the error
branch). -/
theorem C8_precision_error_iff_witness :
    (Float64ToDecimal (mkRat 3 2) 99 (List.replicate 8 0)
        (List.replicate 20 0)).map (fun r => r.2.1)
      = some (if (8 : Int) - ((IntToDecimal (ratTrunc (mkRat 3 2))
            (List.replicate 20 0)).1.length + 1) < 99
          then ErrorCodeBuffersTooMuchPrecisionDigitsForFloat64
          else ErrorCodeNil) :=
  C8_precision_error_iff (mkRat 3 2) 99 (List.replicate 8 0) (List.replicate 20 0)
    (by decide) (by decide) (by decide)

/-- C10: `Float64ToDecimal` is not total: for the input 123456789.0, whose
signed integer-part representation has length 9 (at least the 8-byte float
buffer), and every precision, the separator write at index 9 is out of the
buffer's range — a Go runtime panic, modelled as `none` — because the integer
part and the separator are written before any capacity check; the precision
check only guards the fractional digits. -/
theorem C10_separator_write_out_of_range (precision : Int) (fbuf : List Nat)
    (hf : fbuf.length = 8) :
    Float64ToDecimal (mkRat 123456789 1) precision fbuf (List.replicate 20 0)
      = none := by
  have hL : (IntToDecimal (ratTrunc (mkRat 123456789 1))
      (List.replicate 20 0)).1.length = 9 := by decide
  simp only [Float64ToDecimal]
  rw [if_pos (by rw [listCopy_length, hf, hL]; omega)]

/-- Witness for C10 at precision 0 on the zeroed 8-byte float buffer. -/
theorem C10_separator_write_out_of_range_witness :
    Float64ToDecimal (mkRat 123456789 1) 0 (List.replicate 8 0)
      (List.replicate 20 0) = none :=
  C10_separator_write_out_of_range 0 (List.replicate 8 0) (by decide)

end TinygoBuffers
